import Mathlib

/-!
# Verification of the query extractor (`src/query/extractor.rs`)

Shallow embedding of the extractor core: an `Extractor` owns a compiled
tree-sitter query (its ordered capture names) and a set of ignored capture
indices (those whose name starts with an underscore).  `extract_from_text`
runs the black-box parser/query engine, filters out ignored captures,
projects the survivors into `ExtractedMatch` records and wraps a non-empty
result into an `ExtractedFile`.

The tree-sitter engine is external: we model its per-call behaviour as data
(`TSParser`, `TSTree`, `QueryCapture`), matching the interface the source
consumes: a parser that may fail to bind a language and may fail to produce
a tree, and query matches whose captures carry an index, a node kind, the
result of UTF-8-decoding the node's byte span, and 0-based start/end points.

A Rust panic (the unguarded `self.captures[capture.index as usize]` index)
is modelled by the outer `Option`: `none` is a panic, `some r` is a normal
return of the Rust `Result`.
-/

namespace Curs

/-- A 0-based (row, column) position, mirroring `tree_sitter::Point`. -/
structure Point where
  row : Nat
  column : Nat
deriving DecidableEq, Repr

/-- A syntax-tree node as consumed by the extractor: its grammar kind tag,
the result of `node.utf8_text(source)` (`none` = the byte span is not valid
UTF-8), and its 0-based start/end positions. -/
structure TSNode where
  kind : String
  utf8Text : Option String
  startPos : Point
  endPos : Point
deriving DecidableEq, Repr

/-- One query capture: a capture index into the query's capture-name table
plus the captured node, mirroring `tree_sitter::QueryCapture`. -/
structure QueryCapture where
  index : Nat
  node : TSNode
deriving DecidableEq, Repr

/-- One query match, a sequence of captures, mirroring `tree_sitter::QueryMatch`. -/
structure QueryMatch where
  captures : List QueryCapture
deriving DecidableEq, Repr

/-- A parsed tree together with the query-engine output on it: the matches
that `QueryCursor::matches(&query, root_node, source)` yields. -/
structure TSTree where
  «matches» : List QueryMatch
deriving DecidableEq, Repr

/-- The caller-supplied `tree_sitter::Parser`, modelled by its observable
behaviour in one call: whether `set_language` succeeds, and what tree (if
any) `parse` returns for a given byte source. -/
structure TSParser where
  setLanguageOk : Bool
  parse : List Nat → Option TSTree

/-- A filesystem path, modelled by its optional UTF-8 rendering:
`display?` is `Path::to_str` (`none` for a non-UTF-8 path). -/
structure RsPath where
  display? : Option String
deriving DecidableEq, Repr

/-- Modelled from the spec: `crate::query::Language` is not under `src/`;
per the spec's interface it is a language binding exposing a display name
used as the result tag (`self.language.to_string()`). -/
structure Language where
  display : String
deriving DecidableEq, Repr

/-- Modelled from the spec: the compiled `tree_sitter::Query` is opaque;
the extractor consumes only its ordered capture-name list
(`query.capture_names()`). -/
structure Query where
  capture_names : List String
deriving DecidableEq, Repr

/-- One projected match record, mirroring `ExtractedMatch`:
node kind, capture name, decoded text, 0-based start/end positions. -/
structure ExtractedMatch where
  kind : String
  name : String
  text : String
  start : Point
  «end» : Point
deriving DecidableEq, Repr

/-- One successful extraction result, mirroring `ExtractedFile`:
optional origin path, language display tag, and the ordered matches. -/
structure ExtractedFile where
  file : Option RsPath
  file_type : String
  «matches» : List ExtractedMatch
deriving DecidableEq, Repr

/-- The extractor state, mirroring `Extractor`: language binding, compiled
query, its capture names, and the set of ignored capture indices. -/
structure Extractor where
  language : Language
  query : Query
  captures : List String
  ignores : List Nat

/-- Rust's `name.starts_with('_')` on a `&str`: the first character of the
string is an underscore. -/
def startsWithUnderscore (name : String) : Bool :=
  name.data.head? == some '_'

/-- `Extractor::new`: copy the query's capture names and collect into the
ignored set every index whose capture name starts with an underscore. -/
def Extractor.new (language : Language) (query : Query) : Extractor :=
  let captures := query.capture_names
  let ignores :=
    (captures.enum.filter (fun p => startsWithUnderscore p.2)).map Prod.fst
  { language := language, query := query, captures := captures, ignores := ignores }

/-- The projection loop of `extract_from_text`: for each surviving capture,
look the capture name up by index (an unguarded index in the source: an
out-of-bounds index panics, modelled by `none`), then UTF-8-decode the
node's span (a decode failure aborts the call with a context error), and
build the `ExtractedMatch`.  `collect::<Result<Vec<_>>>` short-circuits at
the first error, so captures after a failing one are never evaluated. -/
def projectCaptures (self : Extractor) :
    List QueryCapture → Option (Except String (List ExtractedMatch))
  | [] => some (Except.ok [])
  | capture :: rest =>
    match self.captures[capture.index]? with
    | none => none
    | some name =>
      match capture.node.utf8Text with
      | none => some (Except.error "could not extract text from capture")
      | some text =>
        match projectCaptures self rest with
        | none => none
        | some (Except.error e) => some (Except.error e)
        | some (Except.ok ms) =>
          some (Except.ok
            ({ kind := capture.node.kind, name := name, text := text,
               start := capture.node.startPos, «end» := capture.node.endPos } :: ms))

/-- The flattened capture stream of a tree's query matches
(`flat_map(|query_match| query_match.captures)`). -/
def TSTree.allCaptures (tree : TSTree) : List QueryCapture :=
  (tree.«matches».map QueryMatch.captures).flatten

/-- The captures surviving the ignored-index filter
(`filter(|capture| !self.ignores.contains(&(capture.index as usize)))`). -/
def Extractor.survivors (self : Extractor) (tree : TSTree) : List QueryCapture :=
  tree.allCaptures.filter (fun capture => ! self.ignores.contains capture.index)

/-- `Extractor::extract_from_text`: configure the parser's language, parse
the source to a tree, run the query, filter ignored captures, project the
survivors, and return `Ok(None)` for an empty match sequence or
`Ok(Some(ExtractedFile))` otherwise.  The outer `Option` models a panic. -/
def Extractor.extract_from_text (self : Extractor) (path : Option RsPath)
    (source : List Nat) (parser : TSParser) :
    Option (Except String (Option ExtractedFile)) :=
  if parser.setLanguageOk = false then
    some (Except.error "could not set language")
  else
    match parser.parse source with
    | none =>
      some (Except.error
        "could not parse to a tree. This is an internal error and should be reported.")
    | some tree =>
      match projectCaptures self (self.survivors tree) with
      | none => none
      | some (Except.error e) => some (Except.error e)
      | some (Except.ok extracted_matches) =>
        if extracted_matches.isEmpty then
          some (Except.ok none)
        else
          some (Except.ok (some
            { file := path, file_type := self.language.display,
              «matches» := extracted_matches }))

/-- `Extractor::extract_from_file`: read the file's bytes via the
filesystem (modelled as a partial map from paths to byte contents), wrap a
read failure with the context string `"could not read file"`, and on
success delegate to `extract_from_text` with `Some(path)`. -/
def Extractor.extract_from_file (self : Extractor)
    (fs : RsPath → Option (List Nat)) (path : RsPath) (parser : TSParser) :
    Option (Except String (Option ExtractedFile)) :=
  match fs path with
  | none => some (Except.error "could not read file")
  | some source => self.extract_from_text (some path) source parser

/-- The origin label of the `Display` impl: the path's UTF-8 rendering,
`"NON-UTF8 FILENAME"` for a non-UTF-8 path, `"NO FILE"` for no path. -/
def originName (file : Option RsPath) : String :=
  match file with
  | some f =>
    match f.display? with
    | some s => s
    | none => "NON-UTF8 FILENAME"
  | none => "NO FILE"

/-- `Display for ExtractedFile`: sequentially `writeln!` one
`origin:row:col:name:text` line per match, with 1-based coordinates. -/
def ExtractedFile.display (self : ExtractedFile) : String :=
  let filename := originName self.file
  self.«matches».foldl
    (fun acc extraction =>
      acc ++ (filename ++ ":" ++ toString (extraction.start.row + 1) ++ ":"
        ++ toString (extraction.start.column + 1) ++ ":"
        ++ extraction.name ++ ":" ++ extraction.text ++ "\n"))
    ""

/-- The single line emitted for one match by the `Display` impl. -/
def matchLine (filename : String) (m : ExtractedMatch) : String :=
  filename ++ ":" ++ toString (m.start.row + 1) ++ ":"
    ++ toString (m.start.column + 1) ++ ":" ++ m.name ++ ":" ++ m.text ++ "\n"

/-- A structural JSON value, the target of the serde serialization. -/
inductive Json where
  | null : Json
  | str : String → Json
  | num : Nat → Json
  | obj : List (String × Json) → Json
  | arr : List Json → Json

/-- The field names of a JSON object (in serialization order). -/
def Json.fieldNames : Json → List String
  | Json.obj fields => fields.map Prod.fst
  | _ => []

/-- `serialize_point`: a `Point` serializes as a 2-field struct with both
coordinates incremented by 1. -/
def serialize_point (point : Point) : Json :=
  Json.obj [("row", Json.num (point.row + 1)), ("column", Json.num (point.column + 1))]

/-- The serde `Serialize` derive on `ExtractedMatch`: every field in
declaration order (`kind`, `name`, `text`, `start`, `end`), with `start`
and `end` rendered through `serialize_point`. -/
def ExtractedMatch.serialize (m : ExtractedMatch) : Json :=
  Json.obj [("kind", Json.str m.kind), ("name", Json.str m.name),
    ("text", Json.str m.text), ("start", serialize_point m.start),
    ("end", serialize_point m.«end»)]

/-- serde's `PathBuf` serialization: the UTF-8 rendering of the path, or a
serialization error (`none`) for a non-UTF-8 path. -/
def serializeRsPath (p : RsPath) : Option Json :=
  p.display?.map Json.str

/-- The serde `Serialize` derive on `ExtractedFile`: fields `file`
(`null` when absent), `file_type`, and the array of serialized matches. -/
def ExtractedFile.serialize (self : ExtractedFile) : Option Json := do
  let fileJson ←
    match self.file with
    | none => some Json.null
    | some p => serializeRsPath p
  some (Json.obj [("file", fileJson), ("file_type", Json.str self.file_type),
    ("matches", Json.arr (self.«matches».map ExtractedMatch.serialize))])

/-- The record built for one surviving capture on the happy path of
`extract_from_text` (the body of the `map` closure when both the name
lookup and the text decode succeed). -/
def Extractor.projectOne (self : Extractor) (c : QueryCapture) : ExtractedMatch :=
  { kind := c.node.kind, name := self.captures.getD c.index "",
    text := c.node.utf8Text.getD "", start := c.node.startPos, «end» := c.node.endPos }

/-- The field list of a JSON object (in serialization order). -/
def Json.fields : Json → List (String × Json)
  | Json.obj fs => fs
  | _ => []

/-! Concrete fixtures used by the witness and counterexample theorems. -/

/-- A concrete language binding. -/
def langFix : Language := { display := "Rust" }

/-- A query with one surfaced capture. -/
def queryFix : Query := { capture_names := ["function"] }

/-- The extractor built from `langFix` and `queryFix`. -/
def extractorFix : Extractor := Extractor.new langFix queryFix

/-- A concrete captured node with decodable text. -/
def nodeFix : TSNode :=
  { kind := "function_item", utf8Text := some "fn main()",
    startPos := { row := 0, column := 0 }, endPos := { row := 0, column := 9 } }

/-- A tree whose single match captures `nodeFix` at capture index 0. -/
def treeFix : TSTree := TSTree.mk [QueryMatch.mk [QueryCapture.mk 0 nodeFix]]

/-- A healthy parser producing `treeFix`. -/
def parserFix : TSParser := { setLanguageOk := true, parse := fun _ => some treeFix }

/-- The match record extracted from `nodeFix` under `queryFix`. -/
def mFix : ExtractedMatch :=
  { kind := "function_item", name := "function", text := "fn main()",
    start := { row := 0, column := 0 }, «end» := { row := 0, column := 9 } }

/-- The extraction result for `parserFix` under `extractorFix`. -/
def efFix : ExtractedFile := { file := none, file_type := "Rust", «matches» := [mFix] }

/-- A tree reporting capture index 5, out of range for `queryFix`. -/
def oobTree : TSTree := TSTree.mk [QueryMatch.mk [QueryCapture.mk 5 nodeFix]]

/-- A parser producing the out-of-range tree `oobTree`. -/
def oobParserFix : TSParser := { setLanguageOk := true, parse := fun _ => some oobTree }

/-- A query with one ignored and one surfaced capture. -/
def queryUnd : Query := { capture_names := ["_helper", "value"] }

/-- A query all of whose capture names are underscore-prefixed. -/
def queryAllUnd : Query := { capture_names := ["_a", "_b"] }

/-- A tree capturing `nodeFix` at both capture indices of `queryAllUnd`. -/
def undTree : TSTree :=
  TSTree.mk [QueryMatch.mk [QueryCapture.mk 0 nodeFix, QueryCapture.mk 1 nodeFix]]

/-- A parser producing `undTree`. -/
def undParserFix : TSParser := { setLanguageOk := true, parse := fun _ => some undTree }

/-- A captured node whose byte span is not valid UTF-8. -/
def badNode : TSNode :=
  { kind := "string_literal", utf8Text := none,
    startPos := { row := 2, column := 4 }, endPos := { row := 2, column := 9 } }

/-- A tree whose single match captures the undecodable `badNode`. -/
def badTree : TSTree := TSTree.mk [QueryMatch.mk [QueryCapture.mk 0 badNode]]

/-- A parser producing `badTree`. -/
def badParserFix : TSParser := { setLanguageOk := true, parse := fun _ => some badTree }

/-- A filesystem on which every read fails. -/
def fsNone : RsPath → Option (List Nat) := fun _ => none

/-- A filesystem on which every read yields the bytes `[102, 110]`. -/
def fsBytes : RsPath → Option (List Nat) := fun _ => some [102, 110]

/-- A concrete UTF-8 path. -/
def pathA : RsPath := { display? := some "input.rs" }

/-- A second, distinct UTF-8 path. -/
def pathB : RsPath := { display? := some "other.rs" }

/-! Helper lemmas. -/

/-- Every record produced by the projection loop takes its name from the
capture-name table at its capture's index. -/
theorem projectCaptures_ok_mem (self : Extractor) (caps : List QueryCapture)
    (ms : List ExtractedMatch)
    (h : projectCaptures self caps = some (Except.ok ms)) :
    ∀ m ∈ ms, ∃ c ∈ caps, ∃ hc : c.index < self.captures.length,
      m.name = self.captures.get ⟨c.index, hc⟩ := by
  induction caps generalizing ms with
  | nil =>
    simp [projectCaptures] at h
    subst h; simp
  | cons capture rest ih =>
    simp only [projectCaptures] at h
    cases hidx : self.captures[capture.index]? with
    | none => rw [hidx] at h; simp at h
    | some name =>
      rw [hidx] at h
      cases htext : capture.node.utf8Text with
      | none => rw [htext] at h; simp at h
      | some text =>
        rw [htext] at h
        cases hrest : projectCaptures self rest with
        | none => rw [hrest] at h; simp at h
        | some r =>
          rw [hrest] at h
          cases r with
          | error e => simp at h
          | ok ms' =>
            simp only [Option.some.injEq, Except.ok.injEq] at h
            subst h
            intro m hm
            rcases List.mem_cons.mp hm with rfl | hm'
            · have hc : capture.index < self.captures.length := by
                have := List.getElem?_eq_some.mp hidx
                exact this.1
              refine ⟨capture, List.mem_cons_self _ _, hc, ?_⟩
              have := List.getElem?_eq_some.mp hidx
              simp [List.get_eq_getElem, this.2]
            · obtain ⟨c, hcmem, hc, hname⟩ := ih ms' hrest m hm'
              exact ⟨c, List.mem_cons_of_mem _ hcmem, hc, hname⟩

/-- When every capture has an in-bounds index and decodable text, the
projection loop succeeds and maps each capture to its record. -/
theorem projectCaptures_ok_of_forall (self : Extractor) (caps : List QueryCapture)
    (h : ∀ c ∈ caps, c.index < self.captures.length ∧ c.node.utf8Text.isSome) :
    projectCaptures self caps = some (Except.ok (caps.map self.projectOne)) := by
  induction caps with
  | nil => simp [projectCaptures]
  | cons capture rest ih =>
    obtain ⟨hc, htext⟩ := h capture (List.mem_cons_self _ _)
    obtain ⟨text, htext'⟩ := Option.isSome_iff_exists.mp htext
    have hidx : self.captures[capture.index]? = some self.captures[capture.index] :=
      List.getElem?_eq_getElem hc
    simp only [projectCaptures, hidx, htext',
      ih (fun c hcm => h c (List.mem_cons_of_mem _ hcm))]
    simp [Extractor.projectOne, List.getD, htext', List.getElem?_eq_getElem hc]

/-- When every capture has an in-bounds index and at least one capture's
text is undecodable, the projection loop aborts with the decode error. -/
theorem projectCaptures_error_decode (self : Extractor) (caps : List QueryCapture)
    (hb : ∀ c ∈ caps, c.index < self.captures.length)
    (hbad : ∃ c ∈ caps, c.node.utf8Text = none) :
    projectCaptures self caps =
      some (Except.error "could not extract text from capture") := by
  induction caps with
  | nil => simp at hbad
  | cons capture rest ih =>
    have hc := hb capture (List.mem_cons_self _ _)
    have hidx : self.captures[capture.index]? = some self.captures[capture.index] :=
      List.getElem?_eq_getElem hc
    cases htext : capture.node.utf8Text with
    | none => simp [projectCaptures, hidx, htext]
    | some text =>
      obtain ⟨c, hcm, hcnone⟩ := hbad
      rcases List.mem_cons.mp hcm with rfl | hcm'
      · rw [htext] at hcnone; simp at hcnone
      · have := ih (fun c hcm => hb c (List.mem_cons_of_mem _ hcm)) ⟨c, hcm', hcnone⟩
        simp [projectCaptures, hidx, htext, this]

/-- When every capture has an in-bounds index, the projection loop does not
panic. -/
theorem projectCaptures_isSome (self : Extractor) (caps : List QueryCapture)
    (hb : ∀ c ∈ caps, c.index < self.captures.length) :
    (projectCaptures self caps).isSome := by
  induction caps with
  | nil => simp [projectCaptures]
  | cons capture rest ih =>
    have hc := hb capture (List.mem_cons_self _ _)
    have hidx : self.captures[capture.index]? = some self.captures[capture.index] :=
      List.getElem?_eq_getElem hc
    cases htext : capture.node.utf8Text with
    | none => simp [projectCaptures, hidx, htext]
    | some text =>
      have := ih (fun c hcm => hb c (List.mem_cons_of_mem _ hcm))
      cases hrest : projectCaptures self rest with
      | none => rw [hrest] at this; simp at this
      | some r =>
        cases r with
        | error e => simp [projectCaptures, hidx, htext, hrest]
        | ok ms => simp [projectCaptures, hidx, htext, hrest]

/-- Membership in the ignored set built by `Extractor::new`. -/
theorem mem_new_ignores (language : Language) (query : Query) (i : Nat) :
    i ∈ (Extractor.new language query).ignores ↔
      ∃ x, query.capture_names[i]? = some x ∧ startsWithUnderscore x = true := by
  simp [Extractor.new, List.mem_map, List.mem_filter, List.mk_mem_enum_iff_getElem?]

/-- `extract_from_text` panics when the projection loop panics. -/
theorem extract_proj_none (self : Extractor) (path : Option RsPath) (source : List Nat)
    (parser : TSParser) (tree : TSTree)
    (hlang : parser.setLanguageOk = true)
    (hparse : parser.parse source = some tree)
    (hproj : projectCaptures self (self.survivors tree) = none) :
    self.extract_from_text path source parser = none := by
  simp [Extractor.extract_from_text, hlang, hparse, hproj]

/-- `extract_from_text` propagates a projection error. -/
theorem extract_proj_err (self : Extractor) (path : Option RsPath) (source : List Nat)
    (parser : TSParser) (tree : TSTree) (msg : String)
    (hlang : parser.setLanguageOk = true)
    (hparse : parser.parse source = some tree)
    (hproj : projectCaptures self (self.survivors tree) = some (Except.error msg)) :
    self.extract_from_text path source parser = some (Except.error msg) := by
  simp [Extractor.extract_from_text, hlang, hparse, hproj]

/-- `extract_from_text` returns `Ok(None)` on an empty match sequence. -/
theorem extract_proj_ok_nil (self : Extractor) (path : Option RsPath) (source : List Nat)
    (parser : TSParser) (tree : TSTree)
    (hlang : parser.setLanguageOk = true)
    (hparse : parser.parse source = some tree)
    (hproj : projectCaptures self (self.survivors tree) = some (Except.ok [])) :
    self.extract_from_text path source parser = some (Except.ok none) := by
  simp [Extractor.extract_from_text, hlang, hparse, hproj]

/-- `extract_from_text` wraps a non-empty match sequence in an
`ExtractedFile` with the given path and the language display tag. -/
theorem extract_proj_ok_cons (self : Extractor) (path : Option RsPath) (source : List Nat)
    (parser : TSParser) (tree : TSTree) (m : ExtractedMatch) (ms : List ExtractedMatch)
    (hlang : parser.setLanguageOk = true)
    (hparse : parser.parse source = some tree)
    (hproj : projectCaptures self (self.survivors tree) = some (Except.ok (m :: ms))) :
    self.extract_from_text path source parser = some (Except.ok (some
      { file := path, file_type := self.language.display, «matches» := m :: ms })) := by
  simp [Extractor.extract_from_text, hlang, hparse, hproj]

/-- Inversion: a successful `Ok(Some(ExtractedFile))` return means the
language was set, a tree was parsed, the projection succeeded on exactly
the result's matches, and the result carries the path and display tag. -/
theorem extract_ok_some_inv (self : Extractor) (path : Option RsPath) (source : List Nat)
    (parser : TSParser) (ef : ExtractedFile)
    (h : self.extract_from_text path source parser = some (Except.ok (some ef))) :
    ∃ tree, parser.setLanguageOk = true ∧ parser.parse source = some tree ∧
      projectCaptures self (self.survivors tree) = some (Except.ok ef.«matches») ∧
      ef.file = path ∧ ef.file_type = self.language.display := by
  by_cases hlang : parser.setLanguageOk = false
  · simp [Extractor.extract_from_text, hlang] at h
  · rw [Bool.not_eq_false] at hlang
    cases hparse : parser.parse source with
    | none => simp [Extractor.extract_from_text, hlang, hparse] at h
    | some tree =>
      cases hproj : projectCaptures self (self.survivors tree) with
      | none => simp [Extractor.extract_from_text, hlang, hparse, hproj] at h
      | some r =>
        cases r with
        | error msg => simp [Extractor.extract_from_text, hlang, hparse, hproj] at h
        | ok ms =>
          by_cases hemp : ms.isEmpty
          · simp [Extractor.extract_from_text, hlang, hparse, hproj, hemp] at h
          · simp only [Extractor.extract_from_text, hlang, hparse, hproj, hemp,
              Bool.false_eq_true, if_false, if_true, Option.some.injEq, Except.ok.injEq,
              Bool.true_eq_false] at h
            refine ⟨tree, hlang, rfl, ?_, ?_, ?_⟩
            all_goals rw [← h]
            all_goals simp [hproj]

/-- A surviving capture comes from the tree's capture stream and its index
is not in the ignored set. -/
theorem survivors_not_ignored (self : Extractor) (tree : TSTree) (c : QueryCapture)
    (hc : c ∈ self.survivors tree) :
    c ∈ tree.allCaptures ∧ self.ignores.contains c.index = false := by
  have := List.mem_filter.mp hc
  refine ⟨this.1, ?_⟩
  have h2 := this.2
  simpa using h2

/-- `String.join` distributes over `cons`. -/
theorem join_cons (s : String) (l : List String) :
    String.join (s :: l) = s ++ String.join l := by
  apply String.ext
  simp [String.join_eq]

/-- Folding string concatenation over a list appends the joined images. -/
theorem foldl_append_join (g : ExtractedMatch → String) (l : List ExtractedMatch)
    (acc : String) :
    l.foldl (fun a m => a ++ g m) acc = acc ++ String.join (l.map g) := by
  induction l generalizing acc with
  | nil => simp [String.join]
  | cons m rest ih =>
    simp only [List.foldl_cons, List.map_cons, join_cons, ih (acc ++ g m),
      String.append_assoc]

/-- The `Display` output is the concatenation of one line per match. -/
theorem display_eq_join (ef : ExtractedFile) :
    ef.display = String.join (ef.«matches».map (matchLine (originName ef.file))) := by
  have := foldl_append_join (matchLine (originName ef.file)) ef.«matches» ""
  rw [ExtractedFile.display]
  rw [show (fun (acc : String) (extraction : ExtractedMatch) =>
      acc ++ (originName ef.file ++ ":" ++ toString (extraction.start.row + 1) ++ ":"
        ++ toString (extraction.start.column + 1) ++ ":"
        ++ extraction.name ++ ":" ++ extraction.text ++ "\n")) =
      (fun acc m => acc ++ matchLine (originName ef.file) m) from rfl]
  rw [this]
  apply String.ext
  simp

/-! Claim theorems. -/

/-- Claim C1: whenever `extract_from_text` returns `Ok(Some(ExtractedFile))`,
every entry of the match sequence bears the compiled query's capture name at
that entry's capture index, and that index is not in the ignored set. -/
theorem C1_match_names_unignored (language : Language) (query : Query)
    (path : Option RsPath) (source : List Nat) (parser : TSParser)
    (ef : ExtractedFile)
    (h : (Extractor.new language query).extract_from_text path source parser =
      some (Except.ok (some ef))) :
    ∀ m ∈ ef.«matches», ∃ i, ∃ hi : i < query.capture_names.length,
      m.name = query.capture_names.get ⟨i, hi⟩ ∧
      (Extractor.new language query).ignores.contains i = false := by
  obtain ⟨tree, hlang, hparse, hproj, hfile, htype⟩ := extract_ok_some_inv _ _ _ _ _ h
  intro m hm
  obtain ⟨c, hcmem, hc, hname⟩ := projectCaptures_ok_mem _ _ _ hproj m hm
  have hign := (survivors_not_ignored _ _ _ hcmem).2
  exact ⟨c.index, hc, hname, hign⟩

/-- Witness for C1 at the concrete fixture extraction. -/
theorem C1_match_names_unignored_witness :
    ∃ i, ∃ hi : i < queryFix.capture_names.length,
      mFix.name = queryFix.capture_names.get ⟨i, hi⟩ ∧
      (Extractor.new langFix queryFix).ignores.contains i = false :=
  C1_match_names_unignored langFix queryFix none [] parserFix efFix rfl
    mFix (by simp [efFix])

/-- Claim C2: for an extractor built by `Extractor::new`, a capture index is
in the ignored set iff the capture name at that index starts with `_`. -/
theorem C2_ignores_iff_underscore (language : Language) (query : Query) (i : Nat)
    (hi : i < query.capture_names.length) :
    (Extractor.new language query).ignores.contains i = true ↔
      startsWithUnderscore (query.capture_names.get ⟨i, hi⟩) = true := by
  have hiff := mem_new_ignores language query i
  have hcm : (Extractor.new language query).ignores.contains i = true ↔
      i ∈ (Extractor.new language query).ignores := by simp
  rw [hcm, hiff]
  simp [List.getElem?_eq_getElem hi, List.get_eq_getElem]

/-- Witness for C2 at the concrete two-capture query. -/
theorem C2_ignores_iff_underscore_witness :
    (Extractor.new langFix queryUnd).ignores.contains 0 = true ↔
      startsWithUnderscore (queryUnd.capture_names.get ⟨0, by decide⟩) = true :=
  C2_ignores_iff_underscore langFix queryUnd 0 (by decide)

/-- Claim C3: when parsing succeeds and every surviving capture decodes, an
empty filtered match sequence yields `Ok(None)` and a non-empty one yields
`Ok(Some(ExtractedFile))` with the given path, the language display tag and
the projected matches. -/
theorem C3_none_vs_some (self : Extractor) (path : Option RsPath) (source : List Nat)
    (parser : TSParser) (tree : TSTree)
    (hlang : parser.setLanguageOk = true)
    (hparse : parser.parse source = some tree)
    (hgood : ∀ c ∈ self.survivors tree,
      c.index < self.captures.length ∧ c.node.utf8Text.isSome) :
    (self.survivors tree = [] →
      self.extract_from_text path source parser = some (Except.ok none)) ∧
    (self.survivors tree ≠ [] →
      self.extract_from_text path source parser = some (Except.ok (some
        { file := path, file_type := self.language.display,
          «matches» := (self.survivors tree).map self.projectOne }))) := by
  have hproj := projectCaptures_ok_of_forall self _ hgood
  constructor
  · intro hnil
    refine extract_proj_ok_nil _ _ _ _ _ hlang hparse ?_
    rw [hproj, hnil]
    rfl
  · intro hne
    cases hs : self.survivors tree with
    | nil => exact absurd hs hne
    | cons c cs =>
      have hproj2 : projectCaptures self (self.survivors tree) =
          some (Except.ok (self.projectOne c :: cs.map self.projectOne)) := by
        rw [hproj, hs]; rfl
      have hres := extract_proj_ok_cons _ path _ _ _ _ _ hlang hparse hproj2
      rw [hres]
      simp

/-- Witness for C3 at the concrete fixture extraction (non-empty branch). -/
theorem C3_none_vs_some_witness :
    extractorFix.extract_from_text none [] parserFix = some (Except.ok (some
      { file := none, file_type := extractorFix.language.display,
        «matches» := (extractorFix.survivors treeFix).map extractorFix.projectOne })) :=
  (C3_none_vs_some extractorFix none [] parserFix treeFix rfl rfl
    (by decide)).2 (by decide)

/-- Claim C4: both renderings report 1-based coordinates: the plain-text
line prints `start.row + 1` and `start.column + 1`, and the structured
serialization renders each `Position` with row and column incremented by 1
for both `start` and `end`. -/
theorem C4_one_based_coordinates :
    (∀ ef : ExtractedFile, ef.display =
      String.join (ef.«matches».map (fun m =>
        originName ef.file ++ ":" ++ toString (m.start.row + 1) ++ ":"
          ++ toString (m.start.column + 1) ++ ":" ++ m.name ++ ":" ++ m.text ++ "\n"))) ∧
    (∀ m : ExtractedMatch,
      ("start", Json.obj [("row", Json.num (m.start.row + 1)),
        ("column", Json.num (m.start.column + 1))]) ∈ m.serialize.fields ∧
      ("end", Json.obj [("row", Json.num (m.«end».row + 1)),
        ("column", Json.num (m.«end».column + 1))]) ∈ m.serialize.fields) := by
  constructor
  · intro ef
    exact display_eq_join ef
  · intro m
    constructor
    · simp [ExtractedMatch.serialize, serialize_point, Json.fields]
    · simp [ExtractedMatch.serialize, serialize_point, Json.fields]

/-- Counterexample to claim C5 as stated: the structured serialization of a
concrete `ExtractedMatch` does contain the node-kind tag, so its field set
is not exactly `name`, `text`, `start`, `end`. -/
theorem C5_serialized_kind_counterexample :
    mFix.serialize.fieldNames ≠ ["name", "text", "start", "end"] ∧
    "kind" ∈ mFix.serialize.fieldNames := by
  constructor
  · decide
  · decide

/-- Claim C5 (amended): the structured serialization of an `ExtractedMatch`
contains exactly the fields `kind`, `name`, `text`, `start`, `end` — the
node-kind tag included — while `file` and `file_type` live at the
`ExtractedFile` level. -/
theorem C5_serialized_fields :
    (∀ m : ExtractedMatch,
      m.serialize.fieldNames = ["kind", "name", "text", "start", "end"]) ∧
    (∀ (ef : ExtractedFile) (j : Json), ef.serialize = some j →
      j.fieldNames = ["file", "file_type", "matches"]) := by
  constructor
  · intro m
    rfl
  · intro ef j h
    cases hf : ef.file with
    | none =>
      simp [ExtractedFile.serialize, hf] at h
      subst h
      rfl
    | some p =>
      cases hd : p.display? with
      | none => simp [ExtractedFile.serialize, serializeRsPath, hf, hd] at h
      | some s =>
        simp [ExtractedFile.serialize, serializeRsPath, hf, hd] at h
        subst h
        rfl

/-- Witness for C5 (amended) at the concrete fixtures. -/
theorem C5_serialized_fields_witness :
    mFix.serialize.fieldNames = ["kind", "name", "text", "start", "end"] ∧
    Json.fieldNames (Json.obj [("file", Json.null), ("file_type", Json.str "Rust"),
      ("matches", Json.arr [mFix.serialize])]) = ["file", "file_type", "matches"] :=
  ⟨C5_serialized_fields.1 mFix, C5_serialized_fields.2 efFix _ rfl⟩

/-- Claim C6: an undecodable byte span in any surviving capture aborts the
whole `extract_from_text` call with the decode error; no partial
`ExtractedFile` is returned. -/
theorem C6_decode_failure_aborts (self : Extractor) (path : Option RsPath)
    (source : List Nat) (parser : TSParser) (tree : TSTree)
    (hlang : parser.setLanguageOk = true)
    (hparse : parser.parse source = some tree)
    (hbounds : ∀ c ∈ self.survivors tree, c.index < self.captures.length)
    (hbad : ∃ c ∈ self.survivors tree, c.node.utf8Text = none) :
    self.extract_from_text path source parser =
      some (Except.error "could not extract text from capture") :=
  extract_proj_err _ _ _ _ _ _ hlang hparse
    (projectCaptures_error_decode _ _ hbounds hbad)

/-- Witness for C6 at the concrete undecodable fixture. -/
theorem C6_decode_failure_aborts_witness :
    extractorFix.extract_from_text none [] badParserFix =
      some (Except.error "could not extract text from capture") :=
  C6_decode_failure_aborts extractorFix none [] badParserFix badTree rfl rfl
    (by decide) (by decide)

/-- Claim C7: when every capture name of the compiled query is
underscore-prefixed, extraction on any parsed input yields `Ok(None)`. -/
theorem C7_all_underscore_no_result (language : Language) (query : Query)
    (path : Option RsPath) (source : List Nat) (parser : TSParser) (tree : TSTree)
    (hall : ∀ name ∈ query.capture_names, startsWithUnderscore name = true)
    (hlang : parser.setLanguageOk = true)
    (hparse : parser.parse source = some tree)
    (hidx : ∀ c ∈ tree.allCaptures, c.index < query.capture_names.length) :
    (Extractor.new language query).extract_from_text path source parser =
      some (Except.ok none) := by
  have hsurv : (Extractor.new language query).survivors tree = [] := by
    rw [Extractor.survivors, List.filter_eq_nil_iff]
    intro c hc
    have hlt := hidx c hc
    have : c.index ∈ (Extractor.new language query).ignores := by
      rw [mem_new_ignores]
      refine ⟨query.capture_names[c.index], List.getElem?_eq_getElem hlt, ?_⟩
      exact hall _ (List.getElem_mem hlt)
    simp [this]
  exact extract_proj_ok_nil _ _ _ _ _ hlang hparse (by rw [hsurv]; rfl)

/-- Witness for C7 at the all-underscore fixture query. -/
theorem C7_all_underscore_no_result_witness :
    (Extractor.new langFix queryAllUnd).extract_from_text none [] undParserFix =
      some (Except.ok none) :=
  C7_all_underscore_no_result langFix queryAllUnd none [] undParserFix undTree
    (by decide) rfl rfl (by decide)

/-- Counterexample to claim C8 as stated: on a failed read the error context
is the fixed string `"could not read file"`, which does not mention the
failing path — two different paths produce the identical error. -/
theorem C8_no_path_in_context_counterexample :
    extractorFix.extract_from_file fsNone pathA parserFix =
      some (Except.error "could not read file") ∧
    ¬ ("input.rs".data <:+: "could not read file".data) ∧
    extractorFix.extract_from_file fsNone pathA parserFix =
      extractorFix.extract_from_file fsNone pathB parserFix :=
  ⟨rfl, by decide, rfl⟩

/-- Claim C8 (amended): `extract_from_file` fails on an unreadable file with
an IO error wrapped with the fixed context `"could not read file"` (which
does not identify the failing path), and on a successful read delegates to
`extract_from_text` with `Some(path)`, the read bytes and the parser. -/
theorem C8_read_and_delegate (self : Extractor) (fs : RsPath → Option (List Nat))
    (path : RsPath) (parser : TSParser) :
    (fs path = none →
      self.extract_from_file fs path parser =
        some (Except.error "could not read file")) ∧
    (∀ source, fs path = some source →
      self.extract_from_file fs path parser =
        self.extract_from_text (some path) source parser) := by
  constructor
  · intro h
    simp [Extractor.extract_from_file, h]
  · intro source h
    simp [Extractor.extract_from_file, h]

/-- Witness for C8 (amended) on both the failing and succeeding filesystem. -/
theorem C8_read_and_delegate_witness :
    extractorFix.extract_from_file fsNone pathB parserFix =
      some (Except.error "could not read file") ∧
    extractorFix.extract_from_file fsBytes pathA parserFix =
      extractorFix.extract_from_text (some pathA) [102, 110] parserFix :=
  ⟨(C8_read_and_delegate extractorFix fsNone pathB parserFix).1 rfl,
   (C8_read_and_delegate extractorFix fsBytes pathA parserFix).2 [102, 110] rfl⟩

/-- Claim C9: the plain-text rendering is one `origin:row:col:name:text`
line per match, in match order, text unescaped, with origin the path's
string form, `"NO FILE"`, or `"NON-UTF8 FILENAME"`. -/
theorem C9_display_format (ef : ExtractedFile) :
    ef.display = String.join (ef.«matches».map (matchLine (originName ef.file))) ∧
    originName ef.file =
      (match ef.file with
        | some p =>
          match p.display? with
          | some s => s
          | none => "NON-UTF8 FILENAME"
        | none => "NO FILE") :=
  ⟨display_eq_join ef, rfl⟩

/-- Claim C10: with every engine-reported capture index within the capture
table, `extract_from_text` never panics; a concrete out-of-range index makes
it panic rather than return an error. -/
theorem C10_unguarded_capture_index :
    (∀ (self : Extractor) (path : Option RsPath) (source : List Nat)
      (parser : TSParser) (tree : TSTree),
      parser.parse source = some tree →
      (∀ c ∈ tree.allCaptures, c.index < self.captures.length) →
      (self.extract_from_text path source parser).isSome = true) ∧
    (extractorFix.extract_from_text none [] oobParserFix = none ∧
      ∀ msg, extractorFix.extract_from_text none [] oobParserFix ≠
        some (Except.error msg)) := by
  have hoob : extractorFix.extract_from_text none [] oobParserFix = none := rfl
  refine ⟨?_, hoob, by simp [hoob]⟩
  intro self path source parser tree hparse hbounds
  by_cases hlang : parser.setLanguageOk = false
  · simp [Extractor.extract_from_text, hlang]
  · rw [Bool.not_eq_false] at hlang
    have hsub : ∀ c ∈ self.survivors tree, c.index < self.captures.length := by
      intro c hc
      exact hbounds c (List.mem_filter.mp hc).1
    have hsome := projectCaptures_isSome self _ hsub
    cases hproj : projectCaptures self (self.survivors tree) with
    | none => rw [hproj] at hsome; simp at hsome
    | some r =>
      cases r with
      | error msg => rw [extract_proj_err _ _ _ _ _ _ hlang hparse hproj]; rfl
      | ok ms =>
        cases ms with
        | nil => rw [extract_proj_ok_nil _ _ _ _ _ hlang hparse hproj]; rfl
        | cons m rest => rw [extract_proj_ok_cons _ _ _ _ _ _ _ hlang hparse hproj]; rfl

/-- Witness for C10: the in-bounds fixture extraction returns, and the
out-of-bounds fixture extraction panics. -/
theorem C10_unguarded_capture_index_witness :
    (extractorFix.extract_from_text none [] parserFix).isSome = true ∧
    extractorFix.extract_from_text none [] oobParserFix = none :=
  ⟨C10_unguarded_capture_index.1 extractorFix none [] parserFix treeFix rfl (by decide),
   C10_unguarded_capture_index.2.1⟩

end Curs
